import Mathlib

/-!
Oat: frame viewer, background subtractor and frame writer

A shallow embedding of the frame viewer (`src/frameviewer/Viewer.cpp`,
`src/frameviewer/main.cpp`), the background subtractor
(`src/framefilter/BackgroundSubtractor.cpp`) and the decoupling buffer of the
frame writer (`src/recorder/FrameWriter.h`).

Stateful code is embedded by explicit state passing.  Everything the program
obtains from outside (the shared-memory node, the clock, the keyboard, the
file system, the signal handler) is read from a `World`: a record of streams,
each indexed by the number of times the program has asked before.  Every
external call is appended to a trace of `Event`s, so that ordering properties
are statements about lists.

Exceptions are values.  They originate at the calls where the program itself
documents or raises them: the blocking source calls (`touch`, `connect`,
`wait`, see the handler in `run`), `storeSnapshotPath`, and the configuration
code of the background subtractor.
-/

namespace Oat

/-! ## Data model -/

/-- Modelled from the spec: the declaration of `oat::NodeState` (lib/shmemdf) is
not part of the sources; the glossary lists the states INIT, CONNECTED, RUNNING
and END. -/
inductive NodeState where
  | INIT
  | CONNECTED
  | RUNNING
  | END
  deriving DecidableEq, Repr

/-- The exceptions the viewer distinguishes: `main` has one handler for each of
the first three and a catch-all for the rest. -/
inductive Exn where
  /-- A `boost::interprocess::interprocess_exception` with its error code. -/
  | interprocess (code : Int)
  /-- A `std::runtime_error` with its message. -/
  | runtime (msg : String)
  /-- A `cv::Exception` with its message. -/
  | cv (msg : String)
  /-- Anything else. -/
  | unknown
  deriving DecidableEq, Repr

/-- A `cv::Mat` of 8-bit samples: its size and its samples in row-major order.
A matrix without data (`data == NULL`) has an empty sample list. -/
structure Mat where
  rows : Nat
  cols : Nat
  data : List Nat
  deriving DecidableEq, Repr

/-- A default-constructed `cv::Mat`. -/
def Mat.null : Mat := { rows := 0, cols := 0, data := [] }

/-- What `boost::filesystem::status` reports for a path: no such file, a
directory, or a file of another kind. -/
inductive FileStatus where
  | file_not_found
  | directory_file
  | regular_file
  deriving DecidableEq, Repr

/-- Every call the viewer makes to something outside itself, in the order of the
trace. -/
inductive Event where
  | namedWindow
  | touch
  | connect
  | wait
  | copyTo
  | post
  | now
  | imshow
  | waitKey
  | createTimeStamp
  | createSavePath
  | imwrite (path : String)
  | cout (text : String)
  | cerr (text : String)
  deriving DecidableEq, Repr

/-- The four operations of the frame source (the shared-memory handshake). -/
def Event.isSourceOp : Event → Bool
  | .touch => true
  | .connect => true
  | .wait => true
  | .copyTo => true
  | .post => true
  | _ => false

/-- The operations of `showImage` that are expensive: display, keyboard polling,
file-name generation and image encoding. -/
def Event.isExpensive : Event → Bool
  | .imshow => true
  | .waitKey => true
  | .createTimeStamp => true
  | .createSavePath => true
  | .imwrite _ => true
  | _ => false

/-- Everything outside the viewer process.  Each stream is indexed by the number
of earlier requests of the same kind. -/
structure World where
  /-- Outcome of `frame_source_.touch(address)`. -/
  touch : Except Exn Unit
  /-- Outcome of `frame_source_.connect()`. -/
  connect : Except Exn Unit
  /-- Outcome of the n-th `frame_source_.wait()`. -/
  wait : Nat → Except Exn NodeState
  /-- The shared frame published for the n-th wait. -/
  frame : Nat → Mat
  /-- The n-th reading of `Clock::now()`, in clock periods. -/
  clock : Nat → Int
  /-- Clock periods per millisecond (for `duration_cast<Milliseconds>`). -/
  periodsPerMs : Int
  /-- The constant `Viewer::MIN_UPDATE_PERIOD_MS` (declared in Viewer.h). -/
  MIN_UPDATE_PERIOD_MS : Int
  /-- The n-th result of `cv::waitKey(1)`, narrowed to `char`. -/
  key : Nat → Char
  /-- The n-th result of `oat::createTimeStamp()`. -/
  timeStamp : Nat → String
  /-- The n-th call of `oat::createSavePath(fid, folder, name, pre, true)`: the
  error code and the path stored in `fid`. -/
  savePath : Nat → String → String → String → Int × String
  /-- The value of the `quit` flag at the n-th test of the loop condition of
  `run`; the signal handler sets it asynchronously. -/
  quit : Nat → Bool
  /-- The file system: the status of each non-empty path. -/
  fileStatus : String → FileStatus
  /-- The result of `boost::filesystem::current_path()`. -/
  current_path : String

/-- The members of `oat::Viewer`. -/
structure Viewer where
  name_ : String
  frame_source_address_ : String
  node_state_ : NodeState
  internal_frame_ : Mat
  tick_ : Int
  tock_ : Int
  snapshot_folder_ : String
  snapshot_base_file_ : String
  deriving DecidableEq, Repr

/-- The state of the viewer process: the viewer object, the global
`source_eof`, how far each stream of the world has been read, and the trace. -/
structure Sys where
  viewer : Viewer
  source_eof : Bool
  waits : Nat
  clocks : Nat
  keys : Nat
  stamps : Nat
  tests : Nat
  trace : List Event
  deriving DecidableEq, Repr

/-- Append an event to the trace. -/
def Sys.emit (s : Sys) (e : Event) : Sys :=
  { s with trace := s.trace ++ [e] }

/-- Read `Clock::now()`. -/
def Sys.now (w : World) (s : Sys) : Int × Sys :=
  (w.clock s.clocks, { s with clocks := s.clocks + 1, trace := s.trace ++ [Event.now] })

/-! ## Viewer.cpp -/

/-- The constructor `Viewer::Viewer(frame_source_address)` followed by the
initial values of the globals. -/
def Viewer.create (w : World) (frame_source_address : String) : Sys :=
  let s0 : Sys :=
    { viewer :=
        { name_ := "viewer[" ++ frame_source_address ++ "]"
          frame_source_address_ := frame_source_address
          node_state_ := NodeState.INIT
          internal_frame_ := Mat.null
          tick_ := 0
          tock_ := 0
          snapshot_folder_ := ""
          snapshot_base_file_ := "" }
      source_eof := false
      waits := 0
      clocks := 0
      keys := 0
      stamps := 0
      tests := 0
      trace := [] }
  -- tick_ = Clock::now();
  let r1 := s0.now w
  let s1 := { r1.2 with viewer := { r1.2.viewer with tick_ := r1.1 } }
  -- tock_ = Clock::now();
  let r2 := s1.now w
  let s2 := { r2.2 with viewer := { r2.2.viewer with tock_ := r2.1 } }
  s2.emit Event.namedWindow

/-- The method `Viewer::connectToNode`. -/
def connectToNode (w : World) (s : Sys) : Except Exn Unit × Sys :=
  -- frame_source_.touch(frame_source_address_);
  let s1 := s.emit Event.touch
  match w.touch with
  | .error e => (.error e, s1)
  | .ok () =>
    -- frame_source_.connect();
    let s2 := s1.emit Event.connect
    match w.connect with
    | .error e => (.error e, s2)
    | .ok () => (.ok (), s2)

/-- The method `Viewer::makeFileName`. -/
def makeFileName (w : World) (s : Sys) : String × Sys :=
  -- std::string timestamp = oat::createTimeStamp();
  let timestamp := w.timeStamp s.stamps
  let s1 := s.emit Event.createTimeStamp
  -- int err = oat::createSavePath(fid, folder, base + ".png", timestamp + "_", true);
  let r := w.savePath s.stamps s.viewer.snapshot_folder_
    (s.viewer.snapshot_base_file_ ++ ".png") (timestamp ++ "_")
  let s2 := { s1 with stamps := s1.stamps + 1, trace := s1.trace ++ [Event.createSavePath] }
  let s3 := if r.1 ≠ 0 then s2.emit (Event.cerr "Snapshop file creation exited with error")
    else s2
  (r.2, s3)

/-- The part of `Viewer::showImage` after the critical section. -/
def showImage.display (w : World) (s : Sys) : Sys :=
  -- tick_ = Clock::now();
  let r1 := s.now w
  let s1 := { r1.2 with viewer := { r1.2.viewer with tick_ := r1.1 } }
  -- duration_cast<Milliseconds>(tick_ - tock_)
  let duration := Int.tdiv (s1.viewer.tick_ - s1.viewer.tock_) w.periodsPerMs
  if duration > w.MIN_UPDATE_PERIOD_MS then
    -- cv::imshow(name_, internal_frame_);
    let s2 := s1.emit Event.imshow
    -- tock_ = Clock::now();
    let r3 := s2.now w
    let s3 := { r3.2 with viewer := { r3.2.viewer with tock_ := r3.1 } }
    -- char command = cv::waitKey(1);
    let command := w.key s3.keys
    let s4 := { s3 with keys := s3.keys + 1, trace := s3.trace ++ [Event.waitKey] }
    if command = 's' then
      -- std::string fid = makeFileName();
      let fid := makeFileName w s4
      -- cv::imwrite(makeFileName(), internal_frame_, compression_params_);
      let target := makeFileName w fid.2
      let s5 := target.2.emit (Event.imwrite target.1)
      -- std::cout << "Snapshot saved to " << fid << "\n";
      s5.emit (Event.cout ("Snapshot saved to " ++ fid.1 ++ "\n"))
    else s4
  else s1

/-- The method `Viewer::showImage`. -/
def showImage (w : World) (s : Sys) : Except Exn Bool × Sys :=
  -- node_state_ = frame_source_.wait();
  let s1 := { s with waits := s.waits + 1, trace := s.trace ++ [Event.wait] }
  match w.wait s.waits with
  | .error e => (.error e, s1)
  | .ok st =>
    let s2 := { s1 with viewer := { s1.viewer with node_state_ := st } }
    if st = NodeState.END then
      (.ok true, s2)
    else
      -- frame_source_.copyTo(internal_frame_);
      let s3 := { s2 with viewer := { s2.viewer with internal_frame_ := w.frame s.waits },
                          trace := s2.trace ++ [Event.copyTo] }
      -- frame_source_.post();
      let s4 := s3.emit Event.post
      (.ok false, showImage.display w s4)

/-! ## boost::filesystem (POSIX), as far as `storeSnapshotPath` uses it -/

namespace bfs

/-- The directory separator. -/
def is_separator (c : Char) : Bool := c == '/'

/-- The character at a position; past the end a `std::string` reads as NUL. -/
def charAt (str : List Char) (i : Nat) : Char := str.getD i (Char.ofNat 0)

/-- Position of the last separator (`find_last_of`), if any. -/
def find_last_sep (str : List Char) : Option Nat :=
  ((List.range str.length).filter (fun i => is_separator (charAt str i))).getLast?

/-- Position of the first separator at or after `start` (`find_first_of`). -/
def find_first_sep (str : List Char) (start : Nat) : Option Nat :=
  ((List.range str.length).filter (fun i => decide (start ≤ i) && is_separator (charAt str i))).head?

/-- Position of the last `.` (`rfind`), if any. -/
def rfind_dot (str : List Char) : Option Nat :=
  ((List.range str.length).filter (fun i => charAt str i == '.')).getLast?

/-- The helper `filename_pos(str, str.size())`: where the last element starts. -/
def filename_pos (str : List Char) : Nat :=
  let n := str.length
  if n == 2 && is_separator (charAt str 0) && is_separator (charAt str 1) then 0
  else if n != 0 && is_separator (charAt str (n - 1)) then n - 1
  else
    match find_last_sep str with
    | none => 0
    | some pos => if pos == 1 && is_separator (charAt str 0) then 0 else pos + 1

/-- The helper `root_directory_start(path, size)`; `none` is `npos`. -/
def root_directory_start (path : List Char) (size : Nat) : Option Nat :=
  if size == 2 && is_separator (charAt path 0) && is_separator (charAt path 1) then none
  else if decide (size > 3) && is_separator (charAt path 0) && is_separator (charAt path 1)
      && !is_separator (charAt path 2) then
    match find_first_sep path 2 with
    | some pos => if pos < size then some pos else none
    | none => none
  else if decide (size > 0) && is_separator (charAt path 0) then some 0
  else none

/-- The loop of `m_parent_path_end` that steps back over separators, stopping at
the root directory. -/
def skip_separators (str : List Char) (root_dir_pos : Option Nat) : Nat → Nat
  | 0 => 0
  | end_pos + 1 =>
    if some end_pos != root_dir_pos && is_separator (charAt str end_pos) then
      skip_separators str root_dir_pos end_pos
    else end_pos + 1

/-- The helper `path::m_parent_path_end`; `none` is `npos`. -/
def m_parent_path_end (str : List Char) : Option Nat :=
  let end_pos := filename_pos str
  let filename_was_separator := str.length != 0 && is_separator (charAt str end_pos)
  let root_dir_pos := root_directory_start str end_pos
  let end_pos := skip_separators str root_dir_pos end_pos
  if end_pos == 1 && root_dir_pos == some 0 && filename_was_separator then none
  else some end_pos

/-- The member `path::parent_path`. -/
def parent_path (p : String) : String :=
  match m_parent_path_end p.toList with
  | none => ""
  | some end_pos => String.mk (p.toList.take end_pos)

/-- Step `pos` back to the leftmost separator of a run of separators. -/
def leftmost_separator (str : List Char) : Nat → Nat
  | 0 => 0
  | pos + 1 => if is_separator (charAt str pos) then leftmost_separator str pos else pos + 1

/-- The helper `is_root_separator(str, pos)`. -/
def is_root_separator (str : List Char) (pos : Nat) : Bool :=
  let pos := leftmost_separator str pos
  if pos == 0 then true
  else if decide (pos < 3) || !is_separator (charAt str 0) || !is_separator (charAt str 1) then false
  else find_first_sep str 2 == some pos

/-- The member `path::filename`. -/
def filename (p : String) : String :=
  let str := p.toList
  let pos := filename_pos str
  if str.length != 0 && pos != 0 && is_separator (charAt str pos) && !is_root_separator str pos then "."
  else String.mk (str.drop pos)

/-- The member `path::stem`. -/
def stem (p : String) : String :=
  let name := filename p
  if name = "." ∨ name = ".." then name
  else
    match rfind_dot name.toList with
    | none => name
    | some pos => String.mk (name.toList.take pos)

/-- The function `status(p)`: the empty path names no file. -/
def status (w : World) (p : String) : FileStatus :=
  if p = "" then FileStatus.file_not_found else w.fileStatus p

/-- The function `exists(p)`. -/
def «exists» (w : World) (p : String) : Bool :=
  status w p != FileStatus.file_not_found

/-- The function `is_directory(p)`. -/
def is_directory (w : World) (p : String) : Bool :=
  status w p == FileStatus.directory_file

end bfs

/-- The method `Viewer::storeSnapshotPath`. -/
def storeSnapshotPath (w : World) (snapshot_path : String) (s : Sys) : Except Exn Unit × Sys :=
  let path := snapshot_path
  -- if (!bfs::exists(path.parent_path())) throw std::runtime_error(...)
  if !bfs.exists w (bfs.parent_path path) then
    (.error (Exn.runtime "Requested snapshot save directory does not exist.\n"), s)
  else if bfs.is_directory w path then
    (.ok (), { s with viewer := { s.viewer with
      snapshot_folder_ := path
      snapshot_base_file_ := s.viewer.frame_source_address_ } })
  else
    let base := bfs.stem path
    (.ok (), { s with viewer := { s.viewer with
      snapshot_folder_ := bfs.parent_path path
      snapshot_base_file_ :=
        if base = "" ∨ base = "." then s.viewer.frame_source_address_ else base } })

/-! ## main.cpp -/

/-- The loop `while (!quit && !source_eof) source_eof = viewer->showImage();`.
The fuel bounds the number of tests of the loop condition; `none` means the
fuel ran out before the loop was left. -/
def runLoop (w : World) : Nat → Sys → Option (Except Exn Unit × Sys)
  | 0, _ => none
  | fuel + 1, s =>
    -- !quit && !source_eof
    let s1 := { s with tests := s.tests + 1 }
    if w.quit s.tests || s.source_eof then
      some (.ok (), s1)
    else
      match showImage w s1 with
      | (.error e, s2) => some (.error e, s2)
      | (.ok eof, s2) => runLoop w fuel { s2 with source_eof := eof }

/-- The body of the `try` block of `run`. -/
def runBody (w : World) (fuel : Nat) (s : Sys) : Option (Except Exn Unit × Sys) :=
  match connectToNode w s with
  | (.error e, s1) => some (.error e, s1)
  | (.ok (), s1) => runLoop w fuel s1

/-- The handler of `run`: an `interprocess_exception` is rethrown unless its
error code is 1; no other exception is caught. -/
def runHandler : Exn → Except Exn Unit
  | .interprocess code => if code ≠ 1 then .error (.interprocess code) else .ok ()
  | e => .error e

/-- The function `run`. -/
def run (w : World) (fuel : Nat) (s : Sys) : Option (Except Exn Unit × Sys) :=
  match runBody w fuel s with
  | none => none
  | some (.ok (), s1) => some (.ok (), s1)
  | some (.error e, s1) => some (runHandler e, s1)

/-- The outcome of parsing the command line (`po::store`, `po::notify`) and the
entries of the variables map that `main` reads. -/
structure CommandLine where
  parsed : Except Exn Unit
  help : Bool
  version : Bool
  source : Option String
  snapshot_path : Option String

/-- The text of an exception (`what()`, `msg`), as `main` reports it. -/
def Exn.what : Exn → String
  | .interprocess _ => "interprocess_exception"
  | .runtime msg => msg
  | .cv msg => msg
  | .unknown => "Unknown exception.\n"

/-- The first `try` block of `main`: either the process exits at once (exit
status and output), or the SOURCE and the snapshot path are known. -/
def main.options (w : World) (cl : CommandLine) : Except (Int × List Event) (String × String) :=
  match cl.parsed with
  | .error Exn.unknown => .error (-1, [Event.cerr "Exception of unknown type.\n"])
  | .error e => .error (-1, [Event.cerr (e.what ++ "\n")])
  | .ok () =>
    if cl.help then .error (0, [Event.cout "Usage"])
    else if cl.version then .error (0, [Event.cout "Oat Frame Viewer version"])
    else
      match cl.source with
      | none => .error (-1, [Event.cout "Usage", Event.cerr "A SOURCE must be specified. Exiting.\n"])
      | some source =>
        -- if (!variable_map.count("snapshot-path")) snapshot_path = bfs::current_path().string();
        .ok (source, cl.snapshot_path.getD w.current_path)

/-- The three lines `main` prints before it calls `run`. -/
def main.banner (source : String) : String :=
  "Listening to source " ++ source ++ ".\n"
    ++ "Press 's' on the viewer window to take a snapshot.\n"
    ++ "Press CTRL+C to exit.\n"

/-- The rest of `main`: the viewer is created and the second `try` block runs.
The result is the exit status and the trace of the process, or `none` when the
fuel given to the loop of `run` ran out. -/
def main.session (w : World) (source snapshot_path : String) (fuel : Nat) :
    Option (Int × List Event) :=
  -- std::make_shared<oat::Viewer>(source)
  let s0 := Viewer.create w source
  -- viewer->storeSnapshotPath(snapshot_path);
  match storeSnapshotPath w snapshot_path s0 with
  | (.error e, s1) => some (-1, (s1.emit (Event.cerr (e.what ++ "\n"))).trace)
  | (.ok (), s1) =>
    let s2 := s1.emit (Event.cout (main.banner source))
    -- run(viewer);
    match run w fuel s2 with
    | none => none
    | some (.error e, s3) => some (-1, (s3.emit (Event.cerr (e.what ++ "\n"))).trace)
    | some (.ok (), s3) => some (0, (s3.emit (Event.cout "Exiting.\n")).trace)

/-- The function `main`. -/
def main (w : World) (cl : CommandLine) (fuel : Nat) : Option (Int × List Event) :=
  match main.options w cl with
  | .error r => some r
  | .ok (source, snapshot_path) => main.session w source snapshot_path fuel

/-! ## BackgroundSubtractor.cpp -/

/-- The conversion `cv::saturate_cast<uchar>`. -/
def saturate_cast (v : Int) : Nat :=
  if v < 0 then 0 else if v > 255 then 255 else v.toNat

/-- The matrix expression `a - b` on 8-bit matrices: the element-wise saturated
difference; OpenCV raises a `cv::Exception` when the sizes differ. -/
def Mat.sub (a b : Mat) : Except Exn Mat :=
  if a.rows = b.rows ∧ a.cols = b.cols ∧ a.data.length = b.data.length then
    .ok { a with data := List.zipWith (fun (x y : Nat) => saturate_cast ((x : Int) - (y : Int))) a.data b.data }
  else
    .error (Exn.cv "The operation is neither array op array (where arrays have the same size)")

/-- The members of `oat::BackgroundSubtractor` that its methods use. -/
structure BackgroundSubtractor where
  background_set : Bool
  background_frame : Mat
  deriving DecidableEq, Repr

/-- A freshly constructed subtractor: no background configured. -/
def BackgroundSubtractor.create : BackgroundSubtractor :=
  { background_set := false, background_frame := Mat.null }

/-- The method `BackgroundSubtractor::setBackgroundImage`; `frame.clone()` is a
deep copy, which for a value is the value itself. -/
def BackgroundSubtractor.setBackgroundImage (b : BackgroundSubtractor) (frame : Mat) :
    BackgroundSubtractor :=
  { b with background_frame := frame, background_set := true }

/-- The method `BackgroundSubtractor::filter`: the subtractor and the frame after
the call, or the exception of the subtraction. -/
def BackgroundSubtractor.filter (b : BackgroundSubtractor) (frame : Mat) :
    Except Exn (BackgroundSubtractor × Mat) :=
  if b.background_set then
    -- frame = frame - background_frame;
    match Mat.sub frame b.background_frame with
    | .ok r => .ok (b, r)
    | .error e => .error e
  else
    -- setBackgroundImage(frame);
    .ok (b.setBackgroundImage frame, frame)

/-- A value of a TOML table, as far as `configure` tells them apart: a string or
something else (number, boolean, array, nested table). -/
inductive TomlValue where
  | string (s : String)
  | other
  deriving DecidableEq, Repr

/-- A TOML table: keys and their values. -/
abbrev TomlTable := List (String × TomlValue)

/-- A top-level entry of a TOML document: a table or a plain value. -/
inductive TomlItem where
  | table (t : TomlTable)
  | value (v : TomlValue)
  deriving DecidableEq, Repr

/-- A parsed TOML document. -/
abbrev TomlDoc := List (String × TomlItem)

/-- The member `cpptoml::table::contains`. -/
def TomlDoc.contains (doc : TomlDoc) (key : String) : Bool :=
  (doc.lookup key).isSome

/-- The member `cpptoml::table::get_table`: a null pointer unless the entry is a
table. -/
def TomlDoc.get_table (doc : TomlDoc) (key : String) : Option TomlTable :=
  match doc.lookup key with
  | some (TomlItem.table t) => some t
  | _ => none

/-- Why `configure` failed.  In the program each of these is an exception
derived from `std::runtime_error`. -/
inductive ConfigError where
  /-- The exception `cpptoml::parse_exception` of `parse_file`. -/
  | parse_exception
  /-- The error `configNoTableError`. -/
  | no_table (key : String)
  /-- An unknown key, reported by `checkKeys`. -/
  | unknown_key (key : String)
  /-- A value of the wrong type, reported by `getValue`. -/
  | bad_value (key : String)
  /-- The image file could not be read. -/
  | unreadable (path : String)
  deriving DecidableEq, Repr

/-- Modelled from the spec: `oat::config::checkKeys` (lib/utility/OatTOMLSanitize.h)
is not part of the sources; configuration loading "rejects unknown keys".  The
first key of the table that is not among the options is reported. -/
def checkKeys (options : List String) (table : TomlTable) : Except ConfigError Unit :=
  match table.find? (fun kv => !options.contains kv.1) with
  | some kv => .error (ConfigError.unknown_key kv.1)
  | none => .ok ()

/-- Modelled from the spec: `oat::config::getValue` (lib/utility/OatTOMLSanitize.h)
is not part of the sources; configuration loading "maps option keys to typed
values" and a bad option is a configuration error.  The result is `none` when
the option is absent (the function returns false) and the string when it is
given (the function returns true). -/
def getValue (table : TomlTable) (key : String) : Except ConfigError (Option String) :=
  match table.lookup key with
  | none => .ok none
  | some (TomlValue.string s) => .ok (some s)
  | some TomlValue.other => .error (ConfigError.bad_value key)

/-- What `configure` reads from outside: the configuration files and the image
files. -/
structure ConfigWorld where
  /-- The function `cpptoml::parse_file`: the document, or `none` for a
  `parse_exception`. -/
  parse_file : String → Option TomlDoc
  /-- The function `cv::imread(path, CV_LOAD_IMAGE_COLOR)`; a file that cannot be
  read yields a matrix without data. -/
  imread : String → Mat

/-- The test `background_frame.data == NULL`. -/
def Mat.isNull (m : Mat) : Bool := m.data.isEmpty

/-- The method `BackgroundSubtractor::configure`.  The result is `none` where the
program dereferences the null pointer returned by `get_table` (the entry named
`config_key` is not a table): its behaviour is undefined there. -/
def BackgroundSubtractor.configure (cw : ConfigWorld) (b : BackgroundSubtractor)
    (config_file config_key : String) : Option (Except ConfigError BackgroundSubtractor) :=
  -- std::vector<std::string> options {"background"};
  let options := ["background"]
  -- auto config = cpptoml::parse_file(config_file);
  match cw.parse_file config_file with
  | none => some (.error ConfigError.parse_exception)
  | some config =>
    if config.contains config_key then
      match config.get_table config_key with
      | none => none
      | some this_config =>
        match checkKeys options this_config with
        | .error e => some (.error e)
        | .ok () =>
          match getValue this_config "background" with
          | .error e => some (.error e)
          | .ok none => some (.ok b)
          | .ok (some background_img_path) =>
            let b1 := { b with background_frame := cw.imread background_img_path }
            if b1.background_frame.isNull then
              some (.error (ConfigError.unreadable background_img_path))
            else
              some (.ok { b1 with background_set := true })
    else
      some (.error (ConfigError.no_table config_key))

/-! ## FrameWriter.h -/

/-- Modelled from the spec: the body of `FrameWriter::push` (FrameWriter.cpp), the
constant `BUFFER_SIZE` (Writer.h) and `boost::lockfree::spsc_queue` are not part
of the sources.  Section 4.4 of the spec describes the decoupling queue: a
buffer of fixed capacity with a counter of dropped frames. -/
structure SPSCBuffer where
  capacity : Nat
  items : List Mat
  dropped : Nat
  deriving DecidableEq, Repr

/-- Modelled from the spec: the buffer `buffer_` of a new `FrameWriter`, empty and
of capacity `BUFFER_SIZE`. -/
def SPSCBuffer.create (BUFFER_SIZE : Nat) : SPSCBuffer :=
  { capacity := BUFFER_SIZE, items := [], dropped := 0 }

/-- Modelled from the spec: `push(frame) -> bool` "attempts to enqueue a deep copy;
returns false and increments a drop counter if the queue is at capacity; never
blocks". -/
def SPSCBuffer.push (q : SPSCBuffer) (frame : Mat) : Bool × SPSCBuffer :=
  if q.items.length ≥ q.capacity then
    (false, { q with dropped := q.dropped + 1 })
  else
    (true, { q with items := q.items ++ [frame] })

/-- Modelled from the spec: `pop() -> Option<frame>`, the removal on the consumer
side; `none` when the queue is empty. -/
def SPSCBuffer.pop (q : SPSCBuffer) : Option Mat × SPSCBuffer :=
  match q.items with
  | [] => (none, q)
  | f :: rest => (some f, { q with items := rest })

/-- A run of pushes with no pop in between: the results in order and the buffer
afterwards. -/
def SPSCBuffer.pushAll (q : SPSCBuffer) : List Mat → List Bool × SPSCBuffer
  | [] => ([], q)
  | f :: fs =>
    let r := q.push f
    let rs := SPSCBuffer.pushAll r.2 fs
    (r.1 :: rs.1, rs.2)

/-! ## Auxiliary definitions for the statements -/

/-- The state `t` extends `s` outside the critical section: the trace grows by
events that are not source operations, and the position in the stream of waits,
the loop counter, the flag `source_eof`, the copied frame and the observed node
state stay as they are. -/
def Sys.Quiet (s t : Sys) : Prop :=
  ∃ rest, t.trace = s.trace ++ rest
    ∧ rest.filter Event.isSourceOp = []
    ∧ t.waits = s.waits
    ∧ t.tests = s.tests
    ∧ t.source_eof = s.source_eof
    ∧ t.viewer.internal_frame_ = s.viewer.internal_frame_
    ∧ t.viewer.node_state_ = s.viewer.node_state_

/-- A world for the examples: two frames and then the end of the stream, a
clock that advances 100 ms per reading, and the key `s` on the first poll. -/
def demoWorld : World :=
  { touch := .ok ()
    connect := .ok ()
    wait := fun n => if n < 2 then .ok NodeState.RUNNING else .ok NodeState.END
    frame := fun n => { rows := 1, cols := 1, data := [n] }
    clock := fun n => 100 * n
    periodsPerMs := 1
    MIN_UPDATE_PERIOD_MS := 33
    key := fun n => if n = 0 then 's' else 'x'
    timeStamp := fun n => if n = 0 then "t0" else "t1"
    savePath := fun _ folder name pre => (0, folder ++ "/" ++ pre ++ name)
    quit := fun _ => false
    fileStatus := fun p => if p = "/" ∨ p = "/tmp" then .directory_file else .file_not_found
    current_path := "/tmp" }

/-- The state of the viewer process right after construction for source `raw`. -/
def demoSys : Sys := Viewer.create demoWorld "raw"

/-- The command line `view raw`. -/
def demoCommandLine : CommandLine :=
  { parsed := .ok (), help := false, version := false, source := some "raw", snapshot_path := none }

/-- The state of the process of `view raw` in `w` when `main` calls `run`. -/
def demoStart (w : World) : Sys :=
  (storeSnapshotPath w "/tmp" (Viewer.create w "raw")).2.emit
    (Event.cout (main.banner "raw"))

/-- The example world, except that every wait is interrupted with the given
error code. -/
def interruptWorld (code : Int) : World :=
  { demoWorld with wait := fun _ => .error (Exn.interprocess code) }

/-- The state in which the first wait of `interruptWorld` raises. -/
def interruptedSys (code : Int) : Sys :=
  (showImage (interruptWorld code)
    { (connectToNode (interruptWorld code) (demoStart (interruptWorld code))).2 with tests := 1 }).2

/-- The same process when the two frames have been consumed: the next wait of
`demoWorld` reports the end of the stream. -/
def demoSysAtEnd : Sys := { demoSys with waits := 2 }

/-- A one-sample frame, for the examples. -/
def demoFrame (v : Nat) : Mat := { rows := 1, cols := 1, data := [v] }

/-- A configuration world in which `bad.toml` is not valid TOML, `view.toml` has
the table `bg` with a readable background image, and no other image is
readable. -/
def demoConfigWorld : ConfigWorld :=
  { parse_file := fun file =>
      if file = "view.toml" then
        some [("bg", TomlItem.table [("background", TomlValue.string "back.png")])]
      else if file = "bad.toml" then none
      else some []
    imread := fun path => if path = "back.png" then demoFrame 7 else Mat.null }

/-- The example world with a directory `snapshots` in the current directory
`/tmp`, named by a relative path. -/
def relativeWorld : World :=
  { demoWorld with
    fileStatus := fun p =>
      if p = "/" ∨ p = "/tmp" ∨ p = "snapshots" then .directory_file else .file_not_found }

/-- The example world with the root directory as the current directory. -/
def rootWorld : World := { demoWorld with current_path := "/" }

/-- A sequence of calls of `filter`, each on the subtractor the previous call
left: the subtractor and the frame after every call, in order, or the first
exception. -/
def BackgroundSubtractor.filterEach (b : BackgroundSubtractor) :
    List Mat → Except Exn (List (BackgroundSubtractor × Mat))
  | [] => .ok []
  | f :: fs =>
    match b.filter f with
    | .error e => .error e
    | .ok r =>
      match BackgroundSubtractor.filterEach r.1 fs with
      | .error e => .error e
      | .ok rest => .ok (r :: rest)

/-- The state of `view raw` in the example world when `main` calls `run`: the
snapshot folder is `/tmp` and the base file name is `raw`. -/
def demoSnapshotSys : Sys := demoStart demoWorld

end Oat

/-! # Theorems -/

namespace Oat

/-! ## Viewer::showImage -/

theorem Sys.Quiet.refl (s : Sys) : s.Quiet s :=
  ⟨[], by simp, rfl, rfl, rfl, rfl, rfl, rfl⟩

theorem Sys.Quiet.trans {s t u : Sys} (h1 : s.Quiet t) (h2 : t.Quiet u) : s.Quiet u := by
  obtain ⟨r1, a1, a2, a3, a4, a5, a6, a7⟩ := h1
  obtain ⟨r2, b1, b2, b3, b4, b5, b6, b7⟩ := h2
  refine ⟨r1 ++ r2, ?_, ?_, ?_, ?_, ?_, ?_, ?_⟩
  · rw [b1, a1, List.append_assoc]
  · rw [List.filter_append, a2, b2]; rfl
  · rw [b3, a3]
  · rw [b4, a4]
  · rw [b5, a5]
  · rw [b6, a6]
  · rw [b7, a7]

/-- One step outside the critical section: an event that is not a source
operation is appended, and the protected fields are kept. -/
theorem Sys.Quiet.step (s t : Sys) (e : Event) (he : e.isSourceOp = false)
    (h1 : t.trace = s.trace ++ [e]) (h2 : t.waits = s.waits) (h3 : t.tests = s.tests)
    (h4 : t.source_eof = s.source_eof)
    (h5 : t.viewer.internal_frame_ = s.viewer.internal_frame_)
    (h6 : t.viewer.node_state_ = s.viewer.node_state_) : s.Quiet t :=
  ⟨[e], h1, by simp [he], h2, h3, h4, h5, h6⟩

/-- Writing an event that is not a source operation is a quiet step. -/
theorem Sys.Quiet.emit (s : Sys) (e : Event) (he : e.isSourceOp = false) : s.Quiet (s.emit e) :=
  Sys.Quiet.step s (s.emit e) e he rfl rfl rfl rfl rfl rfl

theorem makeFileName_quiet (w : World) (s : Sys) : s.Quiet (makeFileName w s).2 := by
  unfold makeFileName
  dsimp only
  have step2 : s.Quiet
      { s.emit Event.createTimeStamp with
        stamps := (s.emit Event.createTimeStamp).stamps + 1
        trace := (s.emit Event.createTimeStamp).trace ++ [Event.createSavePath] } :=
    ⟨[Event.createTimeStamp, Event.createSavePath], by simp [Sys.emit], rfl, rfl, rfl, rfl, rfl, rfl⟩
  split_ifs
  · exact step2.trans (Sys.Quiet.emit _ _ rfl)
  · exact step2

/-- After the critical section the viewer only appends events to the trace, none
of them a source operation, and it leaves the stream position of the source and
the globals alone. -/
theorem display_quiet (w : World) (s : Sys) : s.Quiet (showImage.display w s) := by
  unfold showImage.display
  dsimp only
  split_ifs
  · refine Sys.Quiet.trans ?_ (Sys.Quiet.emit _ _ rfl)
    refine Sys.Quiet.trans ?_ (Sys.Quiet.emit _ _ rfl)
    refine Sys.Quiet.trans ?_ (makeFileName_quiet w _)
    refine Sys.Quiet.trans ?_ (makeFileName_quiet w _)
    exact ⟨[Event.now, Event.imshow, Event.now, Event.waitKey], by simp [Sys.now, Sys.emit],
      rfl, rfl, rfl, rfl, rfl, rfl⟩
  · exact ⟨[Event.now, Event.imshow, Event.now, Event.waitKey], by simp [Sys.now, Sys.emit],
      rfl, rfl, rfl, rfl, rfl, rfl⟩
  · exact ⟨[Event.now], by simp [Sys.now], rfl, rfl, rfl, rfl, rfl, rfl⟩

/-- What `showImage` does once `wait` has returned a state: the result, the new
state and the new events, for the end of the stream and for a frame. -/
theorem showImage_ok (w : World) (s : Sys) (st : NodeState) (h : w.wait s.waits = .ok st) :
    (st = NodeState.END →
      (showImage w s).1 = .ok true
      ∧ (showImage w s).2.trace = s.trace ++ [Event.wait]
      ∧ (showImage w s).2.viewer.internal_frame_ = s.viewer.internal_frame_)
    ∧ (st ≠ NodeState.END →
      (showImage w s).1 = .ok false
      ∧ (showImage w s).2.viewer.internal_frame_ = w.frame s.waits
      ∧ ∃ rest, (showImage w s).2.trace
            = s.trace ++ Event.wait :: Event.copyTo :: Event.post :: rest
          ∧ rest.filter Event.isSourceOp = [])
    ∧ (showImage w s).2.waits = s.waits + 1
    ∧ (showImage w s).2.tests = s.tests
    ∧ (showImage w s).2.viewer.node_state_ = st := by
  unfold showImage
  simp only [h]
  by_cases hst : st = NodeState.END
  · simp [hst]
  · simp only [hst, if_false, false_implies, ne_eq, not_false_eq_true, true_implies, true_and]
    obtain ⟨rest, h1, h2, h3, h4, _, h6, h7⟩ := display_quiet w
      (Sys.emit { s with waits := s.waits + 1
                         trace := s.trace ++ [Event.wait] ++ [Event.copyTo]
                         viewer := { s.viewer with node_state_ := st, internal_frame_ := w.frame s.waits } }
        Event.post)
    refine ⟨⟨h6, rest, ?_, h2⟩, h3, h4, h7⟩
    rw [h1]
    simp [Sys.emit]

/-- An exception of `wait` leaves `showImage` at once: nothing follows the wait. -/
theorem showImage_error (w : World) (s : Sys) (e : Exn) (h : w.wait s.waits = .error e) :
    showImage w s = (.error e, { s with waits := s.waits + 1, trace := s.trace ++ [Event.wait] }) := by
  unfold showImage
  simp only [h]

/-- C1: when `frame_source_.wait()` returns END, `showImage` returns true, and the
wait is the only thing the call does: the trace grows by the single event
`wait` (no copyTo, no post, no display, no snapshot) and the internal frame is
not written. -/
theorem showImage_end_only_waits (w : World) (s : Sys)
    (h : w.wait s.waits = .ok NodeState.END) :
    (showImage w s).1 = .ok true
    ∧ (showImage w s).2.trace = s.trace ++ [Event.wait]
    ∧ (showImage w s).2.viewer.internal_frame_ = s.viewer.internal_frame_ :=
  (showImage_ok w s NodeState.END h).1 rfl

/-- C1 at a concrete input: the third wait of the example world reports END. -/
theorem showImage_end_only_waits_witness :
    (showImage demoWorld demoSysAtEnd).1 = .ok true
    ∧ (showImage demoWorld demoSysAtEnd).2.trace = demoSysAtEnd.trace ++ [Event.wait]
    ∧ (showImage demoWorld demoSysAtEnd).2.viewer.internal_frame_
        = demoSysAtEnd.viewer.internal_frame_ :=
  showImage_end_only_waits demoWorld demoSysAtEnd rfl

/-- C2: when `frame_source_.wait()` returns a state other than END, the events of
the call start with wait, copyTo, post, in this order, and no other source
operation follows; the shared frame of this wait is copied into
`internal_frame_`; and `showImage` returns false.  Hence, whatever state the
wait returns, `showImage` returns true if and only if that state is END. -/
theorem showImage_wait_copy_post (w : World) (s : Sys) (st : NodeState)
    (h : w.wait s.waits = .ok st) :
    (st ≠ NodeState.END →
      (showImage w s).1 = .ok false
      ∧ (showImage w s).2.viewer.internal_frame_ = w.frame s.waits
      ∧ ∃ rest, (showImage w s).2.trace
            = s.trace ++ Event.wait :: Event.copyTo :: Event.post :: rest
          ∧ rest.filter Event.isSourceOp = [])
    ∧ ((showImage w s).1 = .ok true ↔ st = NodeState.END) := by
  obtain ⟨hEnd, hFrame, -⟩ := showImage_ok w s st h
  refine ⟨hFrame, ?_⟩
  constructor
  · intro hr
    by_contra hst
    rw [(hFrame hst).1] at hr
    cases hr
  · intro hst
    exact (hEnd hst).1

/-- C2 at a concrete input: the first wait of the example world returns RUNNING. -/
theorem showImage_wait_copy_post_witness :
    (showImage demoWorld demoSys).1 = .ok false
    ∧ (showImage demoWorld demoSys).2.viewer.internal_frame_ = demoWorld.frame demoSys.waits
    ∧ ∃ rest, (showImage demoWorld demoSys).2.trace
          = demoSys.trace ++ Event.wait :: Event.copyTo :: Event.post :: rest
        ∧ rest.filter Event.isSourceOp = [] :=
  (showImage_wait_copy_post demoWorld demoSys NodeState.RUNNING rfl).1 (by decide)

/-- C3: in every execution of `showImage`, whatever the wait returns and whatever
the clock and the keyboard say, each expensive operation (imshow, waitKey, the
file-name generation of makeFileName, imwrite) among the events of the call
comes after the wait and after the post of that call; and whenever the wait
returns a state other than END the call posts exactly once, displayed or not. -/
theorem showImage_expensive_after_post (w : World) (s : Sys) :
    ∃ new, (showImage w s).2.trace = s.trace ++ new
      ∧ (∀ pre e suf, new = pre ++ e :: suf → e.isExpensive = true →
          Event.wait ∈ pre ∧ Event.post ∈ pre)
      ∧ (∀ st, w.wait s.waits = .ok st → st ≠ NodeState.END → new.count Event.post = 1) := by
  cases h : w.wait s.waits with
  | error e =>
    refine ⟨[Event.wait], by rw [showImage_error w s e h], ?_, ?_⟩
    · intro pre e suf hsplit hexp
      rcases pre with _ | ⟨a, pre⟩
      · simp only [List.nil_append, List.cons.injEq] at hsplit
        rw [← hsplit.1] at hexp
        cases hexp
      · simp at hsplit
    · intro st hst
      cases hst
  | ok st =>
    by_cases hst : st = NodeState.END
    · refine ⟨[Event.wait], ((showImage_ok w s st h).1 hst).2.1, ?_, ?_⟩
      · intro pre e suf hsplit hexp
        rcases pre with _ | ⟨a, pre⟩
        · simp only [List.nil_append, List.cons.injEq] at hsplit
          rw [← hsplit.1] at hexp
          cases hexp
        · simp at hsplit
      · intro st2 hst2 hne
        cases hst2
        exact absurd hst hne
    · obtain ⟨-, -, rest, htrace, hrest⟩ := (showImage_ok w s st h).2.1 hst
      refine ⟨Event.wait :: Event.copyTo :: Event.post :: rest, htrace, ?_, ?_⟩
      · intro pre e suf hsplit hexp
        rcases pre with _ | ⟨a, _ | ⟨b, _ | ⟨c, pre⟩⟩⟩
        · simp only [List.nil_append, List.cons.injEq] at hsplit
          rw [← hsplit.1] at hexp
          cases hexp
        · simp only [List.cons_append, List.nil_append, List.cons.injEq] at hsplit
          rw [← hsplit.2.1] at hexp
          cases hexp
        · simp only [List.cons_append, List.nil_append, List.cons.injEq] at hsplit
          rw [← hsplit.2.2.1] at hexp
          cases hexp
        · simp only [List.cons_append, List.cons.injEq] at hsplit
          obtain ⟨ha, -, hc, -⟩ := hsplit
          subst ha hc
          simp
      · intro _ _ _
        have hnone : rest.count Event.post = 0 := by
          rw [List.count_eq_zero]
          intro hmem
          have : Event.post ∈ rest.filter Event.isSourceOp := List.mem_filter.mpr ⟨hmem, rfl⟩
          rw [hrest] at this
          cases this
        simp [List.count_cons, hnone]

/-! ## run and main -/

/-- Events that are not source operations are not waits. -/
theorem count_wait_of_quiet (rest : List Event) (h : rest.filter Event.isSourceOp = []) :
    rest.count Event.wait = 0 := by
  rw [List.count_eq_zero]
  intro hmem
  have : Event.wait ∈ rest.filter Event.isSourceOp := List.mem_filter.mpr ⟨hmem, rfl⟩
  rw [h] at this
  cases this

/-- Events that are not source operations are neither touch nor connect. -/
theorem count_attach_of_quiet (rest : List Event) (h : rest.filter Event.isSourceOp = []) :
    rest.count Event.touch = 0 ∧ rest.count Event.connect = 0 := by
  constructor
  · rw [List.count_eq_zero]
    intro hmem
    have : Event.touch ∈ rest.filter Event.isSourceOp := List.mem_filter.mpr ⟨hmem, rfl⟩
    rw [h] at this
    cases this
  · rw [List.count_eq_zero]
    intro hmem
    have : Event.connect ∈ rest.filter Event.isSourceOp := List.mem_filter.mpr ⟨hmem, rfl⟩
    rw [h] at this
    cases this

/-- One test of the loop condition of `run`, unfolded. -/
theorem runLoop_succ (w : World) (fuel : Nat) (s : Sys) :
    runLoop w (fuel + 1) s =
      if w.quit s.tests || s.source_eof then some (.ok (), { s with tests := s.tests + 1 })
      else
        match showImage w { s with tests := s.tests + 1 } with
        | (.error e, s2) => some (.error e, s2)
        | (.ok eof, s2) => runLoop w fuel { s2 with source_eof := eof } := rfl

/-- An iteration of the loop of `run` in which the wait returns a frame. -/
theorem runLoop_frame (w : World) (fuel : Nat) (s : Sys) (st : NodeState)
    (hquit : w.quit s.tests = false) (heof : s.source_eof = false)
    (hwait : w.wait s.waits = .ok st) (hst : st ≠ NodeState.END) :
    ∃ s2 rest, runLoop w (fuel + 1) s = runLoop w fuel s2
      ∧ s2.source_eof = false
      ∧ s2.waits = s.waits + 1
      ∧ s2.tests = s.tests + 1
      ∧ s2.trace = s.trace ++ Event.wait :: Event.copyTo :: Event.post :: rest
      ∧ rest.filter Event.isSourceOp = [] := by
  have key := showImage_ok w { s with tests := s.tests + 1 } st hwait
  obtain ⟨-, hFrame, hwaits, htests, -⟩ := key
  obtain ⟨hres, -, rest, htrace, hrest⟩ := hFrame hst
  rw [runLoop_succ, if_neg (by simp [hquit, heof])]
  generalize showImage w { s with tests := s.tests + 1 } = r at hres htrace hwaits htests
  obtain ⟨res, s2⟩ := r
  simp only at hres htrace hwaits htests
  subst hres
  exact ⟨{ s2 with source_eof := false }, rest, rfl, rfl, hwaits, htests, htrace, hrest⟩

/-- The iteration of the loop of `run` in which the wait returns END, and the
test of the loop condition that follows it. -/
theorem runLoop_end (w : World) (fuel : Nat) (s : Sys)
    (hquit : w.quit s.tests = false) (heof : s.source_eof = false)
    (hwait : w.wait s.waits = .ok NodeState.END) :
    ∃ s2, runLoop w (fuel + 2) s = some (.ok (), s2)
      ∧ s2.waits = s.waits + 1
      ∧ s2.tests = s.tests + 2
      ∧ s2.trace = s.trace ++ [Event.wait]
      ∧ s2.viewer.node_state_ = NodeState.END := by
  have key := showImage_ok w { s with tests := s.tests + 1 } NodeState.END hwait
  obtain ⟨hEnd, -, hwaits, htests, hstate⟩ := key
  obtain ⟨hres, htrace, -⟩ := hEnd rfl
  rw [runLoop_succ, if_neg (by simp [hquit, heof])]
  generalize showImage w { s with tests := s.tests + 1 } = r at hres htrace hwaits htests hstate
  obtain ⟨res, s2⟩ := r
  simp only at hres htrace hwaits htests hstate
  subst hres
  refine ⟨{ s2 with source_eof := true, tests := s2.tests + 1 }, ?_, hwaits, ?_, htrace, hstate⟩
  · show runLoop w (fuel + 1) { s2 with source_eof := true } = _
    rw [runLoop_succ, if_pos (by simp)]
  · simp only [htests]

/-- The loop of `run`, started where the next `k` waits return frames and the
one after them returns END, with the quit flag never set: it returns after
`k + 2` tests of its condition and `k + 1` waits, the last event being the wait
that observed END. -/
theorem runLoop_until_end (w : World) (hquit : ∀ n, w.quit n = false) :
    ∀ (k : Nat) (s : Sys) (fuel : Nat), s.source_eof = false →
      (∀ i, i < k → ∃ st, w.wait (s.waits + i) = .ok st ∧ st ≠ NodeState.END) →
      w.wait (s.waits + k) = .ok NodeState.END → k + 2 ≤ fuel →
      ∃ s' new, runLoop w fuel s = some (.ok (), s')
        ∧ s'.trace = s.trace ++ new
        ∧ new.count Event.touch = 0 ∧ new.count Event.connect = 0
        ∧ new.count Event.wait = k + 1
        ∧ new.getLast? = some Event.wait
        ∧ s'.waits = s.waits + (k + 1)
        ∧ s'.tests = s.tests + (k + 2)
        ∧ s'.viewer.node_state_ = NodeState.END := by
  intro k
  induction k with
  | zero =>
    intro s fuel heof _ hend hfuel
    obtain ⟨f, rfl⟩ : ∃ f, fuel = f + 2 := ⟨fuel - 2, by omega⟩
    obtain ⟨s2, hrun, hw, ht, htr, hns⟩ := runLoop_end w f s (hquit _) heof (by simpa using hend)
    exact ⟨s2, [Event.wait], hrun, htr, rfl, rfl, rfl, rfl, hw, ht, hns⟩
  | succ k ih =>
    intro s fuel heof hframes hend hfuel
    obtain ⟨f, rfl⟩ : ∃ f, fuel = f + 1 := ⟨fuel - 1, by omega⟩
    obtain ⟨st, hst, hne⟩ := hframes 0 (Nat.succ_pos k)
    obtain ⟨s2, rest, hstep, heof2, hwaits, htests, htrace, hrest⟩ :=
      runLoop_frame w f s st (hquit _) heof (by simpa using hst) hne
    have hframes2 : ∀ i, i < k →
        ∃ st, w.wait (s2.waits + i) = .ok st ∧ st ≠ NodeState.END := by
      intro i hi
      obtain ⟨st2, h1, h2⟩ := hframes (i + 1) (by omega)
      refine ⟨st2, ?_, h2⟩
      rw [← h1, hwaits]
      congr 1
      omega
    have hend2 : w.wait (s2.waits + k) = .ok NodeState.END := by
      rw [← hend, hwaits]
      congr 1
      omega
    obtain ⟨s', new, hrun, htr, hto, hco, hwa, hlast, hws, hts, hns⟩ :=
      ih s2 f heof2 hframes2 hend2 (by omega)
    have hnew : new ≠ [] := by
      intro h0
      rw [h0] at hlast
      cases hlast
    refine ⟨s', (Event.wait :: Event.copyTo :: Event.post :: rest) ++ new, ?_, ?_, ?_, ?_, ?_, ?_,
      ?_, ?_, hns⟩
    · rw [hstep]
      exact hrun
    · rw [htr, htrace, List.append_assoc]
    · simp [List.count_cons, List.count_append, hto, (count_attach_of_quiet rest hrest).1]
    · simp [List.count_cons, List.count_append, hco, (count_attach_of_quiet rest hrest).2]
    · simp [List.count_cons, List.count_append, hwa, count_wait_of_quiet rest hrest]
    · rw [List.getLast?_append_of_ne_nil _ hnew]
      exact hlast
    · rw [hws, hwaits]
      omega
    · rw [hts, htests]
      omega

/-- C4: let the waits issued from the current position return `k` frames (states
other than END) and then END, so that the first END is the `(k + 1)`-th state of
the sequence; let the quit flag never be set and let attaching to the node raise
nothing.  Then, with enough fuel, `run` returns normally.  Its events are
`touch` and `connect` once (one call of `connectToNode`) followed by events
among which there are exactly `k + 1` waits, one per call of `showImage`; the
loop condition is tested `k + 2` times, that is `showImage` is called `k + 1`
times; and the last event is the wait that observed END: no wait follows it. -/
theorem run_stops_at_first_end (w : World) (s : Sys) (k fuel : Nat)
    (hquit : ∀ n, w.quit n = false)
    (htouch : w.touch = .ok ()) (hconnect : w.connect = .ok ())
    (heof : s.source_eof = false)
    (hframes : ∀ i, i < k → ∃ st, w.wait (s.waits + i) = .ok st ∧ st ≠ NodeState.END)
    (hend : w.wait (s.waits + k) = .ok NodeState.END)
    (hfuel : k + 2 ≤ fuel) :
    ∃ s' new, run w fuel s = some (.ok (), s')
      ∧ s'.trace = s.trace ++ Event.touch :: Event.connect :: new
      ∧ new.count Event.touch = 0 ∧ new.count Event.connect = 0
      ∧ new.count Event.wait = k + 1
      ∧ new.getLast? = some Event.wait
      ∧ s'.waits = s.waits + (k + 1)
      ∧ s'.tests = s.tests + (k + 2)
      ∧ s'.viewer.node_state_ = NodeState.END := by
  have hconn : connectToNode w s = (.ok (), (s.emit Event.touch).emit Event.connect) := by
    unfold connectToNode
    simp only [htouch, hconnect]
  obtain ⟨s', new, hrun, htr, hto, hco, hwa, hlast, hws, hts, hns⟩ :=
    runLoop_until_end w hquit k ((s.emit Event.touch).emit Event.connect) fuel heof hframes hend
      hfuel
  refine ⟨s', new, ?_, ?_, hto, hco, hwa, hlast, hws, hts, hns⟩
  · unfold run runBody
    simp only [hconn, hrun]
  · rw [htr]
    simp [Sys.emit]

/-- C4 at a concrete input: in the example world the third state is the first
END, and `run` makes three waits. -/
theorem run_stops_at_first_end_witness :
    ∃ s' new, run demoWorld 4 demoSys = some (.ok (), s')
      ∧ s'.trace = demoSys.trace ++ Event.touch :: Event.connect :: new
      ∧ new.count Event.touch = 0 ∧ new.count Event.connect = 0
      ∧ new.count Event.wait = 2 + 1
      ∧ new.getLast? = some Event.wait
      ∧ s'.waits = demoSys.waits + (2 + 1)
      ∧ s'.tests = demoSys.tests + (2 + 2)
      ∧ s'.viewer.node_state_ = NodeState.END :=
  run_stops_at_first_end demoWorld demoSys 2 4 (fun _ => rfl) rfl rfl rfl
    (fun i hi => by
      have hi2 : i = 0 ∨ i = 1 := by omega
      rcases hi2 with rfl | rfl
      · exact ⟨NodeState.RUNNING, rfl, by decide⟩
      · exact ⟨NodeState.RUNNING, rfl, by decide⟩)
    rfl (by decide)

/-- Whatever the body of `run` raises was raised by `connectToNode` or by a call
of `showImage`. -/
theorem runBody_error_origin (w : World) (fuel : Nat) (s s' : Sys) (e : Exn)
    (h : runBody w fuel s = some (.error e, s')) :
    connectToNode w s = (.error e, s') ∨ ∃ sk, showImage w sk = (.error e, s') := by
  unfold runBody at h
  rcases hc : connectToNode w s with ⟨r, s1⟩
  rw [hc] at h
  rcases r with e1 | u
  · left
    simp only [Option.some.injEq, Prod.mk.injEq, Except.error.injEq] at h
    rw [h.1, h.2]
  · right
    simp only at h
    clear hc
    induction fuel generalizing s1 with
    | zero => simp [runLoop] at h
    | succ f ih =>
      rw [runLoop_succ] at h
      split_ifs at h
      · simp at h
      · rcases hsi : showImage w { s1 with tests := s1.tests + 1 } with ⟨r2, s2⟩
        rw [hsi] at h
        rcases r2 with e2 | b
        · simp only [Option.some.injEq, Prod.mk.injEq, Except.error.injEq] at h
          exact ⟨_, by rw [hsi, h.1, h.2]⟩
        · exact ih _ h

/-- C5: if the body of `run` (a call of `connectToNode` or of `showImage`) raises
an `interprocess_exception` with error code 1, `run` returns normally, in the
state where the exception was raised; and `main`, having stored the snapshot
path and called `run` in that situation, prints its exit message and returns
exit status 0. -/
theorem run_interrupt_is_normal_exit (w : World) (fuel : Nat) (s s' : Sys)
    (h : runBody w fuel s = some (.error (Exn.interprocess 1), s')) :
    run w fuel s = some (.ok (), s')
    ∧ ∀ source snapshot_path s0,
        storeSnapshotPath w snapshot_path (Viewer.create w source) = (.ok (), s0) →
        s = s0.emit (Event.cout (main.banner source)) →
        main.session w source snapshot_path fuel
          = some (0, s'.trace ++ [Event.cout "Exiting.\n"]) := by
  have hrun : run w fuel s = some (.ok (), s') := by
    unfold run
    rw [h]
    rfl
  refine ⟨hrun, ?_⟩
  intro source snapshot_path s0 hstore hs
  subst hs
  unfold main.session
  simp only [hstore, hrun]
  rfl

/-- C5 at a concrete input: `view raw` is interrupted in its first wait. -/
theorem run_interrupt_is_normal_exit_witness :
    run (interruptWorld 1) 1 (demoStart (interruptWorld 1)) = some (.ok (), interruptedSys 1)
    ∧ main (interruptWorld 1) demoCommandLine 1
        = some (0, (interruptedSys 1).trace ++ [Event.cout "Exiting.\n"]) :=
  ⟨(run_interrupt_is_normal_exit (interruptWorld 1) 1 (demoStart (interruptWorld 1))
      (interruptedSys 1) rfl).1,
   (run_interrupt_is_normal_exit (interruptWorld 1) 1 (demoStart (interruptWorld 1))
      (interruptedSys 1) rfl).2 "raw" "/tmp" _ rfl rfl⟩

/-- C6: if the body of `run` (a call of `connectToNode` or of `showImage`) raises
an `interprocess_exception` with an error code other than 1, `run` raises the
same exception in the state where it was raised, so nothing, in particular no
wait, follows; and `main`, having called `run` in that situation, reports the
error and returns exit status -1.  Whatever the code, `run` returns normally
after an `interprocess_exception` if and only if the code is 1. -/
theorem run_rethrows_other_codes (w : World) (fuel : Nat) (s s' : Sys) (code : Int)
    (h : runBody w fuel s = some (.error (Exn.interprocess code), s')) :
    (code ≠ 1 →
      run w fuel s = some (.error (Exn.interprocess code), s')
      ∧ ∀ source snapshot_path s0,
          storeSnapshotPath w snapshot_path (Viewer.create w source) = (.ok (), s0) →
          s = s0.emit (Event.cout (main.banner source)) →
          main.session w source snapshot_path fuel
            = some (-1, s'.trace ++ [Event.cerr ((Exn.interprocess code).what ++ "\n")]))
    ∧ ((∃ s'', run w fuel s = some (.ok (), s'')) ↔ code = 1) := by
  have hrun : run w fuel s = some (runHandler (Exn.interprocess code), s') := by
    unfold run
    rw [h]
  constructor
  · intro hcode
    have hrun2 : run w fuel s = some (.error (Exn.interprocess code), s') := by
      rw [hrun]
      simp [runHandler, hcode]
    refine ⟨hrun2, ?_⟩
    intro source snapshot_path s0 hstore hs
    subst hs
    unfold main.session
    simp only [hstore, hrun2]
    rfl
  · rw [hrun]
    by_cases hcode : code = 1
    · simp [runHandler, hcode]
    · simp [runHandler, hcode]

/-- C6 at a concrete input: the first wait of `view raw` fails with error code 7. -/
theorem run_rethrows_other_codes_witness :
    run (interruptWorld 7) 1 (demoStart (interruptWorld 7))
        = some (.error (Exn.interprocess 7), interruptedSys 7)
    ∧ main (interruptWorld 7) demoCommandLine 1
        = some (-1, (interruptedSys 7).trace ++ [Event.cerr "interprocess_exception\n"]) :=
  ⟨((run_rethrows_other_codes (interruptWorld 7) 1 (demoStart (interruptWorld 7))
      (interruptedSys 7) 7 rfl).1 (by decide)).1,
   ((run_rethrows_other_codes (interruptWorld 7) 1 (demoStart (interruptWorld 7))
      (interruptedSys 7) 7 rfl).1 (by decide)).2 "raw" "/tmp" _ rfl rfl⟩

/-! ## BackgroundSubtractor -/

/-- C7: on a subtractor with no background configured, `filter(frame)` raises
nothing, leaves the frame as it is, stores a copy of the frame as the background
image and sets `background_set`. -/
theorem filter_first_frame_is_background (b : BackgroundSubtractor) (frame : Mat)
    (h : b.background_set = false) :
    b.filter frame = .ok ({ background_set := true, background_frame := frame }, frame) := by
  unfold BackgroundSubtractor.filter BackgroundSubtractor.setBackgroundImage
  simp [h]

/-- C7 at a concrete input: the first frame given to a new subtractor. -/
theorem filter_first_frame_is_background_witness :
    BackgroundSubtractor.create.filter (demoFrame 9)
      = .ok ({ background_set := true, background_frame := demoFrame 9 }, demoFrame 9) :=
  filter_first_frame_is_background BackgroundSubtractor.create (demoFrame 9) rfl

/-- The helper `checkKeys` raises exactly when the table has a key that is not
among the options. -/
theorem checkKeys_error_iff (options : List String) (table : TomlTable) :
    (∃ e, checkKeys options table = .error e) ↔ ∃ kv ∈ table, kv.1 ∉ options := by
  unfold checkKeys
  cases hfind : table.find? (fun kv => !options.contains kv.1) with
  | none =>
    constructor
    · rintro ⟨e, he⟩
      cases he
    · rintro ⟨kv, hkv, hne⟩
      have := List.find?_eq_none.mp hfind kv hkv
      simp at this
      exact absurd this hne
  | some kv =>
    simp only [Except.error.injEq, exists_eq', true_iff]
    refine ⟨kv, List.mem_of_find?_eq_some hfind, ?_⟩
    have := List.find?_some hfind
    simpa using this

/-- A table returned by `get_table` is an entry of the document. -/
theorem contains_of_get_table (doc : TomlDoc) (key : String) (t : TomlTable)
    (h : doc.get_table key = some t) : doc.contains key = true := by
  unfold TomlDoc.get_table at h
  unfold TomlDoc.contains
  cases hl : doc.lookup key with
  | none => simp [hl] at h
  | some item => rfl

/-- The method `configure` on a file that parses and has the table. -/
theorem configure_table (cw : ConfigWorld) (b : BackgroundSubtractor) (file key : String)
    (doc : TomlDoc) (t : TomlTable) (hp : cw.parse_file file = some doc)
    (hg : doc.get_table key = some t) :
    b.configure cw file key =
      match checkKeys ["background"] t with
      | .error e => some (.error e)
      | .ok () =>
        match t.lookup "background" with
        | none => some (.ok b)
        | some TomlValue.other => some (.error (ConfigError.bad_value "background"))
        | some (TomlValue.string path) =>
          if (cw.imread path).isNull then some (.error (ConfigError.unreadable path))
          else some (.ok { background_frame := cw.imread path, background_set := true }) := by
  unfold BackgroundSubtractor.configure
  simp only [hp, contains_of_get_table doc key t hg, if_true, hg]
  cases checkKeys ["background"] t with
  | error e => rfl
  | ok u =>
    unfold getValue
    cases hl : t.lookup "background" with
    | none => rfl
    | some v =>
      cases v with
      | other => rfl
      | string path => rfl

/-- C8, the counterexample: `bad.toml` is not valid TOML, so `configure` raises
(the `parse_exception` of `parse_file`), although none of the three listed
causes holds of a parsed document. -/
theorem configure_raises_on_invalid_toml :
    ¬ ((∃ e, BackgroundSubtractor.create.configure demoConfigWorld "bad.toml" "bg"
            = some (.error e)) ↔
        ∃ doc, demoConfigWorld.parse_file "bad.toml" = some doc ∧
          (doc.get_table "bg" = none
            ∨ ∃ t, doc.get_table "bg" = some t ∧
                ((∃ kv ∈ t, kv.1 ≠ "background")
                  ∨ ∃ path, t.lookup "background" = some (TomlValue.string path)
                      ∧ (demoConfigWorld.imread path).isNull = true))) := by
  intro h
  obtain ⟨doc, hdoc, -⟩ := h.mp ⟨ConfigError.parse_exception, rfl⟩
  cases hdoc

/-- C8, amended: let the entry named `config_key`, if the file has one, be a table.
Then `configure` raises an error if and only if the file is not valid TOML, or it
has no entry named `config_key`, or the table has a key other than `background`,
or the value of `background` is not a string, or it names an image that cannot
be read.  In every other case `configure` returns normally; then `background_set`
is true and the background is the image read whenever a `background` option was
given, and the subtractor is unchanged when none was given. -/
theorem configure_error_iff (cw : ConfigWorld) (b : BackgroundSubtractor) (file key : String)
    (hTable : ∀ doc, cw.parse_file file = some doc → doc.contains key = true →
      (doc.get_table key).isSome = true) :
    ((∃ e, b.configure cw file key = some (.error e)) ↔
      (cw.parse_file file = none
        ∨ ∃ doc, cw.parse_file file = some doc ∧
            (doc.contains key = false
              ∨ ∃ t, doc.get_table key = some t ∧
                  ((∃ kv ∈ t, kv.1 ≠ "background")
                    ∨ t.lookup "background" = some TomlValue.other
                    ∨ ∃ path, t.lookup "background" = some (TomlValue.string path)
                        ∧ (cw.imread path).isNull = true))))
    ∧ ((¬ ∃ e, b.configure cw file key = some (.error e)) →
        ∃ b', b.configure cw file key = some (.ok b')
          ∧ ∀ doc t, cw.parse_file file = some doc → doc.get_table key = some t →
              (∀ path, t.lookup "background" = some (TomlValue.string path) →
                b'.background_set = true ∧ b'.background_frame = cw.imread path)
              ∧ (t.lookup "background" = none → b' = b)) := by
  cases hp : cw.parse_file file with
  | none =>
    have hc : b.configure cw file key = some (.error ConfigError.parse_exception) := by
      unfold BackgroundSubtractor.configure
      simp only [hp]
    refine ⟨⟨fun _ => Or.inl rfl, fun _ => ⟨_, hc⟩⟩, fun hno => absurd ⟨_, hc⟩ hno⟩
  | some doc =>
    by_cases hcon : doc.contains key = true
    · have hsome := hTable doc hp hcon
      obtain ⟨t, ht⟩ := Option.isSome_iff_exists.mp hsome
      have hcfg := configure_table cw b file key doc t hp ht
      have hkeys := checkKeys_error_iff ["background"] t
      simp only [List.mem_singleton] at hkeys
      cases hck : checkKeys ["background"] t with
      | error e =>
        rw [hck] at hcfg
        have hunk : ∃ kv ∈ t, kv.1 ≠ "background" := hkeys.mp ⟨e, hck⟩
        refine ⟨⟨fun _ => Or.inr ⟨doc, rfl, Or.inr ⟨t, ht, Or.inl hunk⟩⟩, fun _ => ⟨e, hcfg⟩⟩,
          fun hno => absurd ⟨e, hcfg⟩ hno⟩
      | ok u =>
        rw [hck] at hcfg
        have hknown : ¬ ∃ kv ∈ t, kv.1 ≠ "background" := by
          intro hex
          obtain ⟨e, he⟩ := hkeys.mpr hex
          rw [hck] at he
          cases he
        cases hl : t.lookup "background" with
        | none =>
          rw [hl] at hcfg
          simp only at hcfg
          refine ⟨⟨fun ⟨e, he⟩ => ?_, ?_⟩, fun _ => ⟨b, hcfg, ?_⟩⟩
          · rw [hcfg] at he
            cases he
          · rintro (h0 | ⟨doc2, hd2, h1 | ⟨t2, ht2, h2 | h3 | ⟨path, h4, -⟩⟩⟩)
            · cases h0
            · cases hd2
              rw [hcon] at h1
              cases h1
            · cases hd2
              rw [ht] at ht2
              cases ht2
              exact absurd h2 hknown
            · cases hd2
              rw [ht] at ht2
              cases ht2
              rw [hl] at h3
              cases h3
            · cases hd2
              rw [ht] at ht2
              cases ht2
              rw [hl] at h4
              cases h4
          · intro doc2 t2 hd2 ht2
            cases hd2
            rw [ht] at ht2
            cases ht2
            refine ⟨fun path hpath => ?_, fun _ => rfl⟩
            rw [hl] at hpath
            cases hpath
        | some v =>
          cases v with
          | other =>
            rw [hl] at hcfg
            simp only at hcfg
            refine ⟨⟨fun _ => Or.inr ⟨doc, rfl, Or.inr ⟨t, ht, Or.inr (Or.inl hl)⟩⟩,
              fun _ => ⟨_, hcfg⟩⟩, fun hno => absurd ⟨_, hcfg⟩ hno⟩
          | string path =>
            rw [hl] at hcfg
            simp only at hcfg
            by_cases hnull : (cw.imread path).isNull = true
            · rw [if_pos hnull] at hcfg
              refine ⟨⟨fun _ => Or.inr ⟨doc, rfl, Or.inr ⟨t, ht, Or.inr (Or.inr ⟨path, hl, hnull⟩)⟩⟩,
                fun _ => ⟨_, hcfg⟩⟩, fun hno => absurd ⟨_, hcfg⟩ hno⟩
            · rw [if_neg hnull] at hcfg
              refine ⟨⟨fun ⟨e, he⟩ => ?_, ?_⟩, fun _ => ⟨_, hcfg, ?_⟩⟩
              · rw [hcfg] at he
                cases he
              · rintro (h0 | ⟨doc2, hd2, h1 | ⟨t2, ht2, h2 | h3 | ⟨path2, h4, h5⟩⟩⟩)
                · cases h0
                · cases hd2
                  rw [hcon] at h1
                  cases h1
                · cases hd2
                  rw [ht] at ht2
                  cases ht2
                  exact absurd h2 hknown
                · cases hd2
                  rw [ht] at ht2
                  cases ht2
                  rw [hl] at h3
                  cases h3
                · cases hd2
                  rw [ht] at ht2
                  cases ht2
                  rw [hl] at h4
                  cases h4
                  exact absurd h5 hnull
              · intro doc2 t2 hd2 ht2
                cases hd2
                rw [ht] at ht2
                cases ht2
                refine ⟨fun path2 hpath => ?_, fun hnone => ?_⟩
                · rw [hl] at hpath
                  cases hpath
                  exact ⟨rfl, rfl⟩
                · rw [hl] at hnone
                  cases hnone
    · have hcon2 : doc.contains key = false := by simpa using hcon
      have hc : b.configure cw file key = some (.error (ConfigError.no_table key)) := by
        unfold BackgroundSubtractor.configure
        simp only [hp, hcon2, Bool.false_eq_true, if_false]
      refine ⟨⟨fun _ => Or.inr ⟨doc, rfl, Or.inl hcon2⟩, fun _ => ⟨_, hc⟩⟩,
        fun hno => absurd ⟨_, hc⟩ hno⟩

/-- C8, amended, at a concrete input: `view.toml` has the table `bg` with a
readable background, so `configure` returns normally with the background set. -/
theorem configure_error_iff_witness :
    ∃ b', BackgroundSubtractor.create.configure demoConfigWorld "view.toml" "bg" = some (.ok b')
      ∧ ∀ doc t, demoConfigWorld.parse_file "view.toml" = some doc →
          doc.get_table "bg" = some t →
          (∀ path, t.lookup "background" = some (TomlValue.string path) →
            b'.background_set = true ∧ b'.background_frame = demoConfigWorld.imread path)
          ∧ (t.lookup "background" = none → b' = BackgroundSubtractor.create) :=
  (configure_error_iff demoConfigWorld BackgroundSubtractor.create "view.toml" "bg"
    (fun doc hdoc _ => by
      have hd : doc = [("bg", TomlItem.table [("background", TomlValue.string "back.png")])] := by
        have h2 : demoConfigWorld.parse_file "view.toml"
            = some [("bg", TomlItem.table [("background", TomlValue.string "back.png")])] := rfl
        rw [h2] at hdoc
        exact (Option.some.inj hdoc).symm
      subst hd
      rfl)).2
    (fun ⟨e, he⟩ => by
      have h2 : BackgroundSubtractor.create.configure demoConfigWorld "view.toml" "bg"
          = some (.ok { background_set := true, background_frame := demoFrame 7 }) := rfl
      rw [h2] at he
      cases he)

/-! ## Viewer::storeSnapshotPath -/

/-- C9, the failing inputs.  The relative path `snapshots` designates an existing
directory, yet `storeSnapshotPath` raises "Requested snapshot save directory does
not exist": the parent path of `snapshots` is the empty path, which does not
exist.  The same happens for the default when the current directory is the root
directory, and `view raw` then exits with status -1 before attaching to the
source. -/
theorem storeSnapshotPath_rejects_existing_directory :
    bfs.is_directory relativeWorld "snapshots" = true
    ∧ storeSnapshotPath relativeWorld "snapshots" demoSys
        = (.error (Exn.runtime "Requested snapshot save directory does not exist.\n"), demoSys)
    ∧ bfs.is_directory rootWorld rootWorld.current_path = true
    ∧ main rootWorld demoCommandLine 4
        = some (-1, [Event.now, Event.now, Event.namedWindow,
            Event.cerr "Requested snapshot save directory does not exist.\n\n"]) := by
  exact ⟨by decide, rfl, by decide, by decide⟩

/-- Where the parent path exists, `storeSnapshotPath` returns normally: for a
directory the folder is the path and the base file name is SOURCE; otherwise the
folder is the parent path and the base file name is the stem of the path, or
SOURCE when the stem is empty or a dot. -/
theorem storeSnapshotPath_of_parent_exists (w : World) (path : String) (s : Sys)
    (h : bfs.exists w (bfs.parent_path path) = true) :
    ∃ s', storeSnapshotPath w path s = (.ok (), s')
      ∧ (bfs.is_directory w path = true →
          s'.viewer.snapshot_folder_ = path
          ∧ s'.viewer.snapshot_base_file_ = s.viewer.frame_source_address_)
      ∧ (bfs.is_directory w path = false →
          s'.viewer.snapshot_folder_ = bfs.parent_path path
          ∧ s'.viewer.snapshot_base_file_
              = if bfs.stem path = "" ∨ bfs.stem path = "." then s.viewer.frame_source_address_
                else bfs.stem path) := by
  unfold storeSnapshotPath
  simp only [h, Bool.not_true, Bool.false_eq_true, if_false]
  by_cases hd : bfs.is_directory w path = true
  · simp [hd]
  · simp [hd]

/-! ## FrameWriter -/

/-- Pushes that fit into the buffer all succeed and are stored in order. -/
theorem pushAll_within_capacity (fs : List Mat) :
    ∀ q : SPSCBuffer, q.items.length + fs.length ≤ q.capacity →
      q.pushAll fs = (List.replicate fs.length true, { q with items := q.items ++ fs }) := by
  induction fs with
  | nil =>
    intro q _
    simp [SPSCBuffer.pushAll]
  | cons f fs ih =>
    intro q hq
    simp only [List.length_cons] at hq
    have hlt : ¬ q.items.length ≥ q.capacity := by omega
    have hpush : q.push f = (true, { q with items := q.items ++ [f] }) := by
      unfold SPSCBuffer.push
      rw [if_neg hlt]
    have hrest := ih { q with items := q.items ++ [f] } (by simp; omega)
    simp only [SPSCBuffer.pushAll, hpush, hrest, List.length_cons, List.replicate_succ,
      List.append_assoc, List.singleton_append]

/-- A run of pushes followed by one more push. -/
theorem pushAll_append_one (fs : List Mat) (f : Mat) :
    ∀ q : SPSCBuffer, q.pushAll (fs ++ [f])
      = ((q.pushAll fs).1 ++ [((q.pushAll fs).2.push f).1], ((q.pushAll fs).2.push f).2) := by
  induction fs with
  | nil =>
    intro q
    simp [SPSCBuffer.pushAll]
  | cons g fs ih =>
    intro q
    simp only [List.cons_append, SPSCBuffer.pushAll, List.append_eq, ih]

/-- C10: on the empty buffer of capacity `BUFFER_SIZE`, with no pop in between,
every push returns (a push is a total function, it cannot block); the first
`BUFFER_SIZE` pushes return true and are stored in order, and the next push, the
`(BUFFER_SIZE + 1)`-th, returns false, leaves the contents as they are and takes
the drop counter from 0 to 1. -/
theorem push_beyond_capacity_drops_once (BUFFER_SIZE : Nat) (fs : List Mat) (f : Mat)
    (h : fs.length = BUFFER_SIZE) :
    (SPSCBuffer.create BUFFER_SIZE).pushAll (fs ++ [f])
        = (List.replicate BUFFER_SIZE true ++ [false],
            { capacity := BUFFER_SIZE, items := fs, dropped := 1 })
    ∧ ((SPSCBuffer.create BUFFER_SIZE).pushAll fs).2.push f
        = (false, { ((SPSCBuffer.create BUFFER_SIZE).pushAll fs).2 with
                    dropped := ((SPSCBuffer.create BUFFER_SIZE).pushAll fs).2.dropped + 1 })
    ∧ ((SPSCBuffer.create BUFFER_SIZE).pushAll fs).2.items = fs
    ∧ ((SPSCBuffer.create BUFFER_SIZE).pushAll fs).2.dropped = 0 := by
  have hfill := pushAll_within_capacity fs (SPSCBuffer.create BUFFER_SIZE)
    (by simp [SPSCBuffer.create, h])
  have hfull : ((SPSCBuffer.create BUFFER_SIZE).pushAll fs).2.push f
      = (false, { ((SPSCBuffer.create BUFFER_SIZE).pushAll fs).2 with
                  dropped := ((SPSCBuffer.create BUFFER_SIZE).pushAll fs).2.dropped + 1 }) := by
    rw [hfill]
    unfold SPSCBuffer.push
    rw [if_pos (by simp [SPSCBuffer.create, h])]
  refine ⟨?_, hfull, by rw [hfill]; simp [SPSCBuffer.create], by rw [hfill]; rfl⟩
  rw [pushAll_append_one, hfull, hfill]
  simp [SPSCBuffer.create, h]

/-- C10 at a concrete input: three pushes on a buffer of capacity two. -/
theorem push_beyond_capacity_drops_once_witness :
    (SPSCBuffer.create 2).pushAll ([demoFrame 0, demoFrame 1] ++ [demoFrame 2])
        = (List.replicate 2 true ++ [false],
            { capacity := 2, items := [demoFrame 0, demoFrame 1], dropped := 1 }) :=
  (push_beyond_capacity_drops_once 2 [demoFrame 0, demoFrame 1] (demoFrame 2) rfl).1

/-! ## BackgroundSubtractor::filter on a sequence of frames -/

/-- The saturated difference of a sample with itself is zero. -/
theorem zipWith_sub_self (l : List Nat) :
    List.zipWith (fun (x y : Nat) => saturate_cast ((x : Int) - (y : Int))) l l
      = List.replicate l.length 0 := by
  induction l with
  | nil => rfl
  | cons x l ih =>
    simp only [List.zipWith_cons_cons, List.length_cons, List.replicate_succ, ih, sub_self]
    rfl

/-- On 8-bit samples the saturated difference is the truncated subtraction. -/
theorem saturate_cast_sub (x y : Nat) (hx : x < 256) :
    saturate_cast ((x : Int) - (y : Int)) = x - y := by
  unfold saturate_cast
  split_ifs with h1 h2
  · omega
  · omega
  · omega

/-- With a background set, `filter` on a frame of the size of the background
keeps the subtractor and returns the element-wise saturated difference. -/
theorem filter_with_background (b : BackgroundSubtractor) (f : Mat)
    (hb : b.background_set = true)
    (hsize : f.rows = b.background_frame.rows ∧ f.cols = b.background_frame.cols
      ∧ f.data.length = b.background_frame.data.length) :
    b.filter f = .ok (b,
      { f with data := List.zipWith (fun (x y : Nat) => saturate_cast ((x : Int) - (y : Int))) f.data b.background_frame.data }) := by
  unfold BackgroundSubtractor.filter Mat.sub
  simp only [hb, if_true, hsize, and_self]

/-- With a background set, a sequence of frames of the size of the background is
filtered frame by frame against that same background. -/
theorem filterEach_with_background (b : BackgroundSubtractor) (hb : b.background_set = true)
    (fs : List Mat)
    (hsize : ∀ f ∈ fs, f.rows = b.background_frame.rows ∧ f.cols = b.background_frame.cols
      ∧ f.data.length = b.background_frame.data.length) :
    b.filterEach fs = .ok (fs.map (fun f => (b,
      { f with data := List.zipWith (fun (x y : Nat) => saturate_cast ((x : Int) - (y : Int))) f.data b.background_frame.data }))) := by
  induction fs with
  | nil => rfl
  | cons f fs ih =>
    have hf := filter_with_background b f hb (hsize f (List.mem_cons_self f fs))
    have hrest := ih (fun g hg => hsize g (List.mem_cons_of_mem f hg))
    simp only [BackgroundSubtractor.filterEach, hf, hrest, List.map_cons]

/-- C11: let frames `f1, f2, ..., fn` of the size of `f1` be passed one after the
other to `filter` on a subtractor with no background configured.  No call
raises.  After every call `background_set` is true and the stored background is
`f1`; the first call returns `f1` as it is, and every later call returns the
element-wise saturated difference of its frame and `f1`.  In particular, passing
`f1` a second time returns the frame of the same size whose samples are all
zero. -/
theorem filter_keeps_first_background (b : BackgroundSubtractor) (f1 : Mat) (rest : List Mat)
    (hb : b.background_set = false)
    (hsize : ∀ f ∈ rest, f.rows = f1.rows ∧ f.cols = f1.cols ∧ f.data.length = f1.data.length) :
    b.filterEach (f1 :: rest)
        = .ok (({ background_set := true, background_frame := f1 }, f1) ::
            rest.map (fun f => ({ background_set := true, background_frame := f1 },
              { f with data := List.zipWith (fun (x y : Nat) => saturate_cast ((x : Int) - (y : Int))) f.data f1.data })))
    ∧ b.filterEach [f1, f1]
        = .ok [({ background_set := true, background_frame := f1 }, f1),
            ({ background_set := true, background_frame := f1 },
              { f1 with data := List.replicate f1.data.length 0 })] := by
  have hfirst : b.filter f1 = .ok ({ background_set := true, background_frame := f1 }, f1) := by
    unfold BackgroundSubtractor.filter BackgroundSubtractor.setBackgroundImage
    simp [hb]
  have hrest := filterEach_with_background { background_set := true, background_frame := f1 } rfl
    rest hsize
  have hagain := filterEach_with_background { background_set := true, background_frame := f1 } rfl
    [f1] (by simp)
  have hcons : ∀ fs out, BackgroundSubtractor.filterEach
      { background_set := true, background_frame := f1 } fs = .ok out →
      b.filterEach (f1 :: fs)
        = .ok (({ background_set := true, background_frame := f1 }, f1) :: out) := by
    intro fs out hout
    rw [BackgroundSubtractor.filterEach, hfirst]
    simp only [hout]
  constructor
  · exact hcons rest _ hrest
  · rw [hcons [f1] _ hagain]
    simp only [List.map_cons, List.map_nil, zipWith_sub_self]

/-- C11 at a concrete input: the frames 9, 12, 3 give the frames 9, 3, 0 and the
background stays 9. -/
theorem filter_keeps_first_background_witness :
    BackgroundSubtractor.create.filterEach [demoFrame 9, demoFrame 12, demoFrame 3]
      = .ok [({ background_set := true, background_frame := demoFrame 9 }, demoFrame 9),
          ({ background_set := true, background_frame := demoFrame 9 }, demoFrame 3),
          ({ background_set := true, background_frame := demoFrame 9 }, demoFrame 0)] :=
  (filter_keeps_first_background BackgroundSubtractor.create (demoFrame 9)
    [demoFrame 12, demoFrame 3] rfl (by decide)).1

/-! ## The snapshot of Viewer::showImage -/

/-- When `showImage` takes a snapshot, the path given to `imwrite` is the result of
the second call of `makeFileName` and the path printed is the result of the
first. -/
theorem display_snapshot_paths (w : World) (s : Sys)
    (hshow : Int.tdiv (w.clock s.clocks - s.viewer.tock_) w.periodsPerMs > w.MIN_UPDATE_PERIOD_MS)
    (hkey : w.key s.keys = 's') :
    ∃ s4 : Sys, (showImage.display w s).trace
      = (makeFileName w (makeFileName w s4).2).2.trace
        ++ [Event.imwrite (makeFileName w (makeFileName w s4).2).1]
        ++ [Event.cout ("Snapshot saved to " ++ (makeFileName w s4).1 ++ "\n")]
      ∧ s4.stamps = s.stamps
      ∧ s4.viewer.snapshot_folder_ = s.viewer.snapshot_folder_
      ∧ s4.viewer.snapshot_base_file_ = s.viewer.snapshot_base_file_ := by
  unfold showImage.display
  simp only [Sys.now, Sys.emit]
  rw [if_pos hshow, if_pos hkey]
  exact ⟨_, rfl, rfl, rfl, rfl⟩

/-- C12, the failing input: in the example world the time stamp changes between
the two calls of `makeFileName`.  The key `s` is read, the image is written to
`/tmp/t1_raw.png`, and the message says it was saved to `/tmp/t0_raw.png`. -/
theorem snapshot_message_names_other_path :
    demoWorld.key demoSnapshotSys.keys = 's'
    ∧ (showImage demoWorld demoSnapshotSys).1 = .ok false
    ∧ (showImage demoWorld demoSnapshotSys).2.trace
        = demoSnapshotSys.trace ++
          [Event.wait, Event.copyTo, Event.post, Event.now, Event.imshow, Event.now,
            Event.waitKey, Event.createTimeStamp, Event.createSavePath,
            Event.createTimeStamp, Event.createSavePath,
            Event.imwrite "/tmp/t1_raw.png",
            Event.cout "Snapshot saved to /tmp/t0_raw.png\n"] := by
  exact ⟨by decide, rfl, by decide⟩

end Oat
